import Mathlib

/-!
# Rolling-paper message board: shallow embedding

Embedding of the server core of the rolling-paper repository.  The server
sources contain three variants:

* an in-memory-cache + JSONL-file variant ("cache variant"),
* a PostgreSQL + Redis variant ("DB variant"), and
* a plain JSONL-file variant ("file variant").

Machinery modelled here: the message data model, JSON-style response rows
(so that exclusion of the `passwordHash` key is a real statement), the Redis
read cache (`messages:all` and `message:<id>` keys; TTL expiry is elided —
an expiry only removes an entry, and no property below depends on it), the
HTTP handlers of the DB variant, the like/update handlers of the cache
variant, the file reader and transcript builders, and the SSE broadcast.

The SHA-256 password digest is not re-implemented; every definition that
hashes is parameterised by an arbitrary `hash : String → String`, exactly as
the code is parameterised by `crypto.createHash('sha256')`.  JavaScript
string truthiness (`if (password)`) is modelled by `Option String` where
`none` and `some ""` are both falsy.
-/

/-- One row of the `messages` table / one JSONL record, mirroring
`interface Message` of `types.ts` plus the DB variant's `is_private`
column (`isPrivate` in application code). -/
structure Message where
  id : String
  author : String
  group : String
  content : String
  timestamp : Int
  likes : Int
  passwordHash : Option String
  isPrivate : Bool
deriving DecidableEq, Repr

/-- JSON values occurring in responses. -/
inductive JValue where
  | str : String → JValue
  | num : Int → JValue
  | bool : Bool → JValue
  | null : JValue
deriving DecidableEq, Repr

/-- A JSON object as an ordered field list. -/
abbrev JObject := List (String × JValue)

/-- The full row of a message as the DB variant's SELECT returns it
(`password_hash as "passwordHash"` is NULL when absent). -/
def Message.toRow (m : Message) : JObject :=
  [("id", .str m.id), ("author", .str m.author), ("group", .str m.group),
   ("content", .str m.content), ("timestamp", .num m.timestamp),
   ("likes", .num m.likes),
   ("passwordHash", match m.passwordHash with | some h => .str h | none => .null),
   ("isPrivate", .bool m.isPrivate)]

/-- Rest-spread destructuring `const { passwordHash, ...msg } = ...`:
every field except the named key. -/
def omitKey (k : String) (o : JObject) : JObject :=
  o.filter (fun p => p.1 ≠ k)

/-- Spread-override `{ ...msg, content: '' }`: replace the value at a key. -/
def setKey (k : String) (v : JValue) (o : JObject) : JObject :=
  o.map (fun p => if p.1 = k then (k, v) else p)

/-- JavaScript truthiness of an optional string: `undefined` and `''` are
falsy. -/
def strTruthy : Option String → Option String
  | some s => if s = "" then none else some s
  | none => none

/-- `verifyPassword` of the server sources: digest-equality comparison,
parameterised by the digest function. -/
def verifyPassword (hash : String → String) (password storedHash : String) : Bool :=
  hash password == storedHash

/-- The static export secret `DOWNLOAD_PASSWORD` of the server sources. -/
def DOWNLOAD_PASSWORD : String := "dt2025-pw"

/-! ## Redis read cache (DB variant)

`messages:all` holds the full list, `message:<id>` holds single messages.
The per-id keyspace is modelled as an association list. -/

structure Cache where
  all : Option (List Message)
  byId : List (String × Message)
deriving DecidableEq, Repr

/-- `redisClient.get('message:' + id)`. -/
def Cache.getById (c : Cache) (id : String) : Option Message :=
  (c.byId.find? (fun p => p.1 == id)).map (·.2)

/-- `redisClient.setEx('message:' + id, 300, ...)` (expiry elided). -/
def Cache.setById (c : Cache) (id : String) (m : Message) : Cache :=
  { c with byId := (id, m) :: c.byId.filter (fun p => p.1 ≠ id) }

/-- `redisClient.del('message:' + id)`. -/
def Cache.delById (c : Cache) (id : String) : Cache :=
  { c with byId := c.byId.filter (fun p => p.1 ≠ id) }

/-- `invalidateCache()`: deletes only the `messages:all` key. -/
def invalidateCache (c : Cache) : Cache :=
  { c with all := none }

/-! ## DB-variant reads -/

/-- `ORDER BY timestamp DESC` of `getMessages` (SQL leaves the relative
order of equal keys unspecified; any sort models it). -/
def sortDesc (store : List Message) : List Message :=
  store.insertionSort (fun a b => b.timestamp ≤ a.timestamp)

/-- `getMessages()` of the DB variant: Redis `messages:all` first, else the
table ordered newest-first, then the cache is repopulated. -/
def getMessagesDB (store : List Message) (c : Cache) : List Message × Cache :=
  match c.all with
  | some v => (v, c)
  | none =>
      let ms := sortDesc store
      (ms, { c with all := some ms })

/-- `SELECT ... WHERE id = $1` (id is the table's primary key). -/
def findById (store : List Message) (id : String) : Option Message :=
  store.find? (fun m => m.id == id)

/-- `getMessageById(id)` of the DB variant: Redis `message:<id>` first, else
the table row, then the cache is repopulated on a hit. -/
def getMessageByIdDB (store : List Message) (c : Cache) (id : String) :
    Option Message × Cache :=
  match c.getById id with
  | some m => (some m, c)
  | none =>
      match findById store id with
      | none => (none, c)
      | some m => (some m, c.setById id m)

/-! ## DB-variant store mutations

Each mirrors one SQL statement plus the cache invalidation that the source
performs before the function returns.  `addMessage` invalidates only
`messages:all`; `updateMessage`, `deleteMessage` and `likeMessage` also
delete `message:<id>`. -/

/-- `addMessage`: INSERT (id is the primary key, so a duplicate insert
throws, modelled as `none`), then `invalidateCache()` only. -/
def addMessageDB (store : List Message) (c : Cache) (m : Message) :
    Option (List Message × Cache) :=
  if store.any (fun x => x.id == m.id) then none
  else some (store ++ [m], invalidateCache c)

/-- The field mutations of an UPDATE restricted to author/content. -/
def applyUpdates (a ct : Option String) (m : Message) : Message :=
  let m1 := match a with | some x => { m with author := x } | none => m
  match ct with | some x => { m1 with content := x } | none => m1

/-- `updateMessage(id, {author?, content?})`: a targeted UPDATE built from
the truthy fields (an empty SET clause is a SQL syntax error, modelled as
`none`), then `invalidateCache()` and `del('message:' + id)`. -/
def updateMessageDB (store : List Message) (c : Cache) (id : String)
    (author content : Option String) : Option (List Message × Cache) :=
  let a := strTruthy author
  let ct := strTruthy content
  if a = none ∧ ct = none then none
  else some (store.map (fun x => if x.id == id then applyUpdates a ct x else x),
             (invalidateCache c).delById id)

/-- `deleteMessage(id)`: DELETE WHERE id, then both invalidations. -/
def deleteMessageDB (store : List Message) (c : Cache) (id : String) :
    List Message × Cache :=
  (store.filter (fun x => ¬ x.id == id), (invalidateCache c).delById id)

/-- `likeMessage(id)`: UPDATE likes = likes + 1 WHERE id, then both
invalidations. -/
def likeMessageDB (store : List Message) (c : Cache) (id : String) :
    List Message × Cache :=
  (store.map (fun x => if x.id == id then { x with likes := x.likes + 1 } else x),
   (invalidateCache c).delById id)

/-! ## DB-variant HTTP handlers -/

/-- Outcome of a DB-variant request: HTTP status, JSON body on success, and
the post-request table and Redis states. -/
structure DbResult where
  status : Nat
  body : Option JObject
  store : List Message
  cache : Cache
deriving Repr

/-- Sanitization used by GET `/api/messages`, the SSE initial payload and
`broadcastUpdate` in the DB variant: drop `passwordHash`, blank `content`
of private messages. -/
def sanitizeDB (m : Message) : JObject :=
  let rest := omitKey "passwordHash" m.toRow
  if m.isPrivate then setKey "content" (.str "") rest else rest

/-- GET `/api/messages` (DB variant): cached-or-fresh list, sanitized. -/
def getMessagesHandlerDB (store : List Message) (c : Cache) :
    List JObject × Cache :=
  let (ms, c1) := getMessagesDB store c
  (ms.map sanitizeDB, c1)

/-- The data payload `broadcastUpdate` writes to every SSE client. -/
def broadcastPayloadDB (store : List Message) (c : Cache) :
    List JObject × Cache :=
  let (ms, c1) := getMessagesDB store c
  (ms.map sanitizeDB, c1)

/-- The `messages_changed` notification handler: `invalidateCache()` then
`broadcastUpdate()`. -/
def onMessagesChanged (store : List Message) (c : Cache) :
    List JObject × Cache :=
  broadcastPayloadDB store (invalidateCache c)

/-- Request body of POST `/api/messages` (DB variant); `isPrivate` is
already coerced by `isPrivate || false`, `likes` may be absent. -/
structure CreateBody where
  id : String
  author : String
  group : String
  content : String
  timestamp : Int
  likes : Option Int
  password : Option String
  isPrivate : Bool
deriving DecidableEq, Repr

/-- The message object POST `/api/messages` builds from its body:
`likes || 0`, digest of a truthy password, `isPrivate || false`. -/
def mkCreateMessage (hash : String → String) (b : CreateBody) : Message :=
  { id := b.id, author := b.author, group := b.group, content := b.content,
    timestamp := b.timestamp, likes := b.likes.getD 0,
    passwordHash := (strTruthy b.password).map hash,
    isPrivate := b.isPrivate }

/-- POST `/api/messages` (DB variant).  The 201 response applies the same
drop-hash / blank-private-content steps as `sanitizeDB`. -/
def postHandlerDB (hash : String → String) (store : List Message) (c : Cache)
    (b : CreateBody) : DbResult :=
  if b.id = "" ∨ b.author = "" ∨ b.group = "" ∨ b.content = "" then
    ⟨400, none, store, c⟩
  else if b.isPrivate ∧ strTruthy b.password = none then
    ⟨400, none, store, c⟩
  else
    match addMessageDB store c (mkCreateMessage hash b) with
    | none => ⟨500, none, store, c⟩
    | some (store2, c2) =>
        ⟨201, some (sanitizeDB (mkCreateMessage hash b)), store2, c2⟩

/-- POST `/api/messages/:id/like` (DB variant). -/
def likeHandlerDB (store : List Message) (c : Cache) (id : String) : DbResult :=
  match getMessageByIdDB store c id with
  | (none, c1) => ⟨404, none, store, c1⟩
  | (some _, c1) =>
      let (store2, c2) := likeMessageDB store c1 id
      match getMessageByIdDB store2 c2 id with
      | (some m2, c3) => ⟨200, some (omitKey "passwordHash" m2.toRow), store2, c3⟩
      | (none, c3) => ⟨500, none, store2, c3⟩

/-- POST `/api/messages/:id/verify` (DB variant). -/
def verifyHandlerDB (hash : String → String) (store : List Message) (c : Cache)
    (id : String) (password : Option String) : DbResult :=
  match strTruthy password with
  | none => ⟨400, none, store, c⟩
  | some pw =>
      match getMessageByIdDB store c id with
      | (none, c1) => ⟨404, none, store, c1⟩
      | (some m, c1) =>
          match m.passwordHash with
          | none => ⟨403, none, store, c1⟩
          | some h =>
              ⟨200, some [("valid", .bool (verifyPassword hash pw h))], store, c1⟩

/-- POST `/api/messages/:id/content` (DB variant). -/
def contentHandlerDB (hash : String → String) (store : List Message) (c : Cache)
    (id : String) (password : Option String) : DbResult :=
  match strTruthy password with
  | none => ⟨400, none, store, c⟩
  | some pw =>
      match getMessageByIdDB store c id with
      | (none, c1) => ⟨404, none, store, c1⟩
      | (some m, c1) =>
          if ¬ m.isPrivate then
            ⟨200, some [("content", .str m.content)], store, c1⟩
          else
            match m.passwordHash with
            | none => ⟨403, none, store, c1⟩
            | some h =>
                if verifyPassword hash pw h then
                  ⟨200, some [("content", .str m.content)], store, c1⟩
                else ⟨401, none, store, c1⟩

/-- PUT `/api/messages/:id` (DB variant). -/
def putHandlerDB (hash : String → String) (store : List Message) (c : Cache)
    (id : String) (password author content : Option String) : DbResult :=
  match strTruthy password with
  | none => ⟨400, none, store, c⟩
  | some pw =>
      match getMessageByIdDB store c id with
      | (none, c1) => ⟨404, none, store, c1⟩
      | (some m, c1) =>
          match m.passwordHash with
          | none => ⟨403, none, store, c1⟩
          | some h =>
              if verifyPassword hash pw h then
                match updateMessageDB store c1 id author content with
                | none => ⟨500, none, store, c1⟩
                | some (store2, c2) =>
                    match getMessageByIdDB store2 c2 id with
                    | (some m2, c3) =>
                        ⟨200, some (omitKey "passwordHash" m2.toRow), store2, c3⟩
                    | (none, c3) => ⟨500, none, store2, c3⟩
              else ⟨401, none, store, c1⟩

/-- DELETE `/api/messages/:id` (DB variant). -/
def deleteHandlerDB (hash : String → String) (store : List Message) (c : Cache)
    (id : String) (password : Option String) : DbResult :=
  match strTruthy password with
  | none => ⟨400, none, store, c⟩
  | some pw =>
      match getMessageByIdDB store c id with
      | (none, c1) => ⟨404, none, store, c1⟩
      | (some m, c1) =>
          match m.passwordHash with
          | none => ⟨403, none, store, c1⟩
          | some h =>
              if verifyPassword hash pw h then
                let (store2, c2) := deleteMessageDB store c1 id
                ⟨200, some [("message", .str "Message deleted successfully")],
                 store2, c2⟩
              else ⟨401, none, store, c1⟩

/-! ## Transcripts and archive export (DB variant) -/

/-- One transcript line, `[author]: content`. -/
def renderLine (m : Message) : String :=
  "[" ++ m.author ++ "]: " ++ m.content

/-- The rows of `generateGroupTxt`'s query:
`WHERE "group" = $1 ORDER BY timestamp ASC`. -/
def groupRowsAsc (store : List Message) (g : String) : List Message :=
  (store.filter (fun m => m.group == g)).insertionSort
    (fun a b => a.timestamp ≤ b.timestamp)

/-- `generateGroupTxt(group)`: empty string when the group has no rows,
else one line per message oldest-first with a trailing newline. -/
def generateGroupTxt (store : List Message) (g : String) : String :=
  if (groupRowsAsc store g).isEmpty then ""
  else String.intercalate "\n" ((groupRowsAsc store g).map renderLine) ++ "\n"

/-- `SELECT DISTINCT "group" FROM messages ORDER BY "group"`. -/
def distinctGroups (store : List Message) : List String :=
  ((store.map (·.group)).dedup).insertionSort (· ≤ ·)

/-- Outcome of POST `/api/download-txt` (DB variant): archive entries are
(name, content) pairs. -/
inductive DownloadResult where
  | badRequest
  | unauthorized
  | notFound
  | archive (entries : List (String × String))
deriving DecidableEq, Repr

/-- One candidate archive entry: the `if (content)` guard skips a group
whose regenerated transcript is empty. -/
def archiveEntry (store : List Message) (g : String) : Option (String × String) :=
  if generateGroupTxt store g = "" then none
  else some (g ++ ".txt", generateGroupTxt store g)

/-- POST `/api/download-txt` (DB variant): static secret check, DISTINCT
groups, one regenerated transcript per group. -/
def downloadHandlerDB (store : List Message) (password : Option String) :
    DownloadResult :=
  match strTruthy password with
  | none => .badRequest
  | some pw =>
      if pw ≠ DOWNLOAD_PASSWORD then .unauthorized
      else
        if (distinctGroups store).isEmpty then .notFound
        else .archive ((distinctGroups store).filterMap (archiveEntry store))

/-! ## Cache-variant and file-variant pieces

The JSONL file is modelled as its parsed records in append order.  The
in-memory `messagesCache` of the cache variant is a `List Message`;
`updateMessages` reverses its argument **in place** before writing, so a
successful like/update/delete leaves the live cache reversed. -/

/-- `readMessagesFromFile` / `readMessages`: parse and reverse
(newest-appended first). -/
def readMessagesFromFile (file : List Message) : List Message :=
  file.reverse

/-- Sanitization of the cache/file variants: drop `passwordHash` only. -/
def sanitizeFileVariant (m : Message) : JObject :=
  omitKey "passwordHash" m.toRow

/-- The payload the cache variant's `broadcastUpdate` pushes: the current
in-memory list with hashes dropped. -/
def broadcastPayloadCache (msgs : List Message) : List JObject :=
  msgs.map sanitizeFileVariant

/-- `messages[findIndex].likes += 1`: bump the first id match only. -/
def bumpFirst : List Message → String → List Message
  | [], _ => []
  | m :: rest, id =>
      if m.id == id then { m with likes := m.likes + 1 } :: rest
      else m :: bumpFirst rest id

/-- In-place field update of the first id match (cache-variant PUT). -/
def updateFirst (a ct : Option String) : List Message → String → List Message
  | [], _ => []
  | m :: rest, id =>
      if m.id == id then applyUpdates a ct m :: rest
      else m :: updateFirst a ct rest id

/-- Outcome of a cache-variant request: status, body, and the state of
`messagesCache` after the request. -/
structure CacheVariantResult where
  status : Nat
  body : Option JObject
  cache : List Message
deriving Repr

/-- POST `/api/messages/:id/like` (cache variant): bump the first match,
then `updateMessages` reverses the live cache while writing the file. -/
def likeHandlerCache (msgs : List Message) (id : String) : CacheVariantResult :=
  match msgs.find? (fun m => m.id == id) with
  | none => ⟨404, none, msgs⟩
  | some m =>
      ⟨200, some (omitKey "passwordHash" (Message.toRow { m with likes := m.likes + 1 })),
       (bumpFirst msgs id).reverse⟩

/-- PUT `/api/messages/:id` (cache variant). -/
def putHandlerCache (hash : String → String) (msgs : List Message) (id : String)
    (password author content : Option String) : CacheVariantResult :=
  match strTruthy password with
  | none => ⟨400, none, msgs⟩
  | some pw =>
      match msgs.find? (fun m => m.id == id) with
      | none => ⟨404, none, msgs⟩
      | some m =>
          match m.passwordHash with
          | none => ⟨403, none, msgs⟩
          | some h =>
              if verifyPassword hash pw h then
                let m2 := applyUpdates (strTruthy author) (strTruthy content) m
                ⟨200, some (omitKey "passwordHash" m2.toRow),
                 (updateFirst (strTruthy author) (strTruthy content) msgs id).reverse⟩
              else ⟨401, none, msgs⟩

/-- DELETE `/api/messages/:id` (cache variant, password checks as in PUT;
splice then rewrite). -/
def deleteHandlerCache (hash : String → String) (msgs : List Message)
    (id : String) (password : Option String) : CacheVariantResult :=
  match strTruthy password with
  | none => ⟨400, none, msgs⟩
  | some pw =>
      match msgs.find? (fun m => m.id == id) with
      | none => ⟨404, none, msgs⟩
      | some m =>
          match m.passwordHash with
          | none => ⟨403, none, msgs⟩
          | some h =>
              if verifyPassword hash pw h then
                ⟨200, some [("message", .str "Message deleted successfully")],
                 (msgs.eraseP (fun x => x.id == id)).reverse⟩
              else ⟨401, none, msgs⟩

/-- The message sequence `rebuildGroupTxtFiles` renders for one group: the
group's messages in the order of the given (newest-first) list, reversed
by `.reverse()`. -/
def rebuildGroupRows (msgs : List Message) (g : String) : List Message :=
  (msgs.filter (fun m => m.group == g)).reverse

/-- `rebuildGroupTxtFiles`' content for one group. -/
def rebuildGroupTxtContent (msgs : List Message) (g : String) : String :=
  String.intercalate "\n" ((rebuildGroupRows msgs g).map renderLine) ++ "\n"

/-! ## Response inspection helpers -/

/-- The key set of a JSON object. -/
def keysOf (o : JObject) : List String :=
  o.map Prod.fst

/-- Value stored at a key (first occurrence). -/
def getKey (k : String) (o : JObject) : Option JValue :=
  (o.find? (fun p => p.1 == k)).map (·.2)

/-- An identity digest used to instantiate the `hash` parameter in closed
statements; any function works, the handlers only compare digests. -/
def idHash : String → String := fun s => s

theorem keysOf_omitKey (k : String) (o : JObject) : k ∉ keysOf (omitKey k o) := by
  simp only [keysOf, omitKey, List.mem_map]
  rintro ⟨p, hp, rfl⟩
  have := (List.mem_filter.1 hp).2
  simp at this

theorem keysOf_setKey (k : String) (v : JValue) (o : JObject) :
    keysOf (setKey k v o) = keysOf o := by
  simp only [keysOf, setKey, List.map_map]
  refine List.map_congr_left ?_
  intro p _
  by_cases h : p.1 = k <;> simp [h]

theorem keysOf_sanitizeDB (m : Message) :
    "passwordHash" ∉ keysOf (sanitizeDB m) := by
  unfold sanitizeDB
  by_cases h : m.isPrivate <;>
    simp only [h, if_true, if_false, keysOf_setKey, Bool.false_eq_true] <;>
    [exact keysOf_omitKey _ _; exact keysOf_omitKey _ _]

theorem getKey_content_sanitizeDB (m : Message) (h : m.isPrivate = true) :
    getKey "content" (sanitizeDB m) = some (.str "") := by
  simp [sanitizeDB, h, setKey, omitKey, Message.toRow, getKey, List.find?]

/-! ## Concrete fixtures used by counterexamples and witnesses -/

/-- A private, password-protected message. -/
def mpPriv : Message :=
  { id := "m1", author := "A", group := "ESD", content := "secret note",
    timestamp := 1000, likes := 0, passwordHash := some "pw", isPrivate := true }

/-- A message stored without any password. -/
def mNoPw : Message :=
  { id := "m2", author := "B", group := "FDM", content := "open note",
    timestamp := 1500, likes := 0, passwordHash := none, isPrivate := false }

/-- A password-protected public message (stored digest is `idHash "p1"`). -/
def mPw : Message :=
  { id := "m3", author := "C", group := "ESD", content := "guarded note",
    timestamp := 2000, likes := 3, passwordHash := some "p1", isPrivate := false }

/-- The empty Redis state. -/
def emptyCache : Cache := ⟨none, []⟩

/-- Claim C1, counterexample: the DB-variant like handler returns an
`isPrivate` message's real content to a caller who supplied no password at
all, so not every response blanks private content. -/
theorem C1_counterexample :
    mpPriv.isPrivate = true ∧
    (likeHandlerDB [mpPriv] emptyCache "m1").status = 200 ∧
    getKey "content" ((likeHandlerDB [mpPriv] emptyCache "m1").body.getD [])
      = some (.str "secret note") ∧
    ("secret note" : String) ≠ "" := by
  refine ⟨rfl, by decide, by decide, by decide⟩

/-- Claim C1 (amended): no response body from the list, SSE/broadcast,
create, like, update or delete operations of the DB variant ever contains
the `passwordHash` key; the list, SSE/broadcast and create responses blank
the content of `isPrivate` messages; the like response does not (see the
counterexample); and an update response body exists only when the caller
proved password knowledge in that same request: its supplied password was
truthy and its digest matched the stored hash of the message read for that
request. -/
theorem C1_amended (hash : String → String) (store : List Message) (c : Cache)
    (id : String) (password author content : Option String) (b : CreateBody) :
    (∀ o ∈ (getMessagesHandlerDB store c).1, "passwordHash" ∉ keysOf o) ∧
    (∀ o ∈ (broadcastPayloadDB store c).1, "passwordHash" ∉ keysOf o) ∧
    (∀ m' ∈ (getMessagesDB store c).1, m'.isPrivate = true →
      getKey "content" (sanitizeDB m') = some (.str "")) ∧
    (∀ o, (postHandlerDB hash store c b).body = some o →
      "passwordHash" ∉ keysOf o ∧
      (b.isPrivate = true → getKey "content" o = some (.str ""))) ∧
    (∀ o, (likeHandlerDB store c id).body = some o → "passwordHash" ∉ keysOf o) ∧
    (∀ o, (putHandlerDB hash store c id password author content).body = some o →
      "passwordHash" ∉ keysOf o) ∧
    (∀ o, (deleteHandlerDB hash store c id password).body = some o →
      "passwordHash" ∉ keysOf o) ∧
    (∀ o, (putHandlerDB hash store c id password author content).body = some o →
      ∃ pw m2 hsh, strTruthy password = some pw ∧
        (getMessageByIdDB store c id).1 = some m2 ∧
        m2.passwordHash = some hsh ∧
        verifyPassword hash pw hsh = true) := by
  refine ⟨?_, ?_, ?_, ?_, ?_, ?_, ?_, ?_⟩
  · intro o ho
    unfold getMessagesHandlerDB at ho
    obtain ⟨m', _, rfl⟩ := List.mem_map.1 ho
    exact keysOf_sanitizeDB m'
  · intro o ho
    unfold broadcastPayloadDB at ho
    obtain ⟨m', _, rfl⟩ := List.mem_map.1 ho
    exact keysOf_sanitizeDB m'
  · intro m' _ hp
    exact getKey_content_sanitizeDB m' hp
  · intro o ho
    unfold postHandlerDB at ho
    split at ho
    · simp at ho
    · split at ho
      · simp at ho
      · split at ho
        · simp at ho
        · simp only [Option.some.injEq] at ho
          subst ho
          refine ⟨keysOf_sanitizeDB _, fun hp => ?_⟩
          exact getKey_content_sanitizeDB (mkCreateMessage hash b)
            (by simp [mkCreateMessage, hp])
  · intro o ho
    unfold likeHandlerDB at ho
    split at ho
    · simp at ho
    · split at ho
      split at ho
      · simp only [Option.some.injEq] at ho
        subst ho
        exact keysOf_omitKey _ _
      · simp at ho
  · intro o ho
    unfold putHandlerDB at ho
    split at ho
    · simp at ho
    · split at ho
      · simp at ho
      · split at ho
        · simp at ho
        · split at ho
          · split at ho
            · simp at ho
            · split at ho
              · simp only [Option.some.injEq] at ho
                subst ho
                exact keysOf_omitKey _ _
              · simp at ho
          · simp at ho
  · intro o ho
    unfold deleteHandlerDB at ho
    split at ho
    · simp at ho
    · split at ho
      · simp at ho
      · split at ho
        · simp at ho
        · split at ho
          · split at ho
            simp only [Option.some.injEq] at ho
            subst ho
            simp [keysOf]
          · simp at ho
  · intro o ho
    unfold putHandlerDB at ho
    split at ho
    · simp at ho
    next pw hpw =>
      split at ho
      · simp at ho
      next m2 c1 hget =>
        split at ho
        · simp at ho
        next hsh hhash =>
          split at ho
          next hver =>
            exact ⟨pw, m2, hsh, hpw, by rw [hget], hhash, hver⟩
          next hver => simp at ho

/-- A well-formed create body whose password is the empty string. -/
def cbEmptyPw : CreateBody :=
  { id := "m9", author := "D", group := "ESD", content := "note",
    timestamp := 3000, likes := none, password := some "", isPrivate := false }

/-- Claim C1, witness for the amended theorem: blanked private content at
a concrete private message, and the password-knowledge fact at a concrete
successful update. -/
theorem C1_amended_witness :
    getKey "content" (sanitizeDB mpPriv) = some (.str "") ∧
    (∃ pw m2 hsh, strTruthy (some "p1") = some pw ∧
      (getMessageByIdDB [mPw] emptyCache "m3").1 = some m2 ∧
      m2.passwordHash = some hsh ∧
      verifyPassword idHash pw hsh = true) :=
  ⟨(C1_amended idHash [mpPriv] emptyCache "m1" none none none cbEmptyPw).2.2.1
      mpPriv (by decide) rfl,
   (C1_amended idHash [mPw] emptyCache "m3" (some "p1") (some "Z") none
      cbEmptyPw).2.2.2.2.2.2.2
     ((putHandlerDB idHash [mPw] emptyCache "m3" (some "p1") (some "Z")
        none).body.getD [])
     (by decide)⟩

/-! ## Authorization lemmas shared by C2, C3 and C10 -/

theorem strTruthy_some {p : String} (hp : p ≠ "") : strTruthy (some p) = some p := by
  simp [strTruthy, hp]

theorem getMessageByIdDB_found (store : List Message) (c : Cache) (id : String)
    (m : Message) (hm : findById store id = some m)
    (hcoh : c.getById id = none ∨ c.getById id = some m) :
    ∃ c1, getMessageByIdDB store c id = (some m, c1) := by
  rcases hcoh with h | h
  · exact ⟨c.setById id m, by simp [getMessageByIdDB, h, hm]⟩
  · exact ⟨c, by simp [getMessageByIdDB, h]⟩

/-- PUT on a hash-less message with a truthy password: 403, store kept. -/
theorem put_forbidden (hash : String → String) (store : List Message) (c : Cache)
    (id pw : String) (author content : Option String) (m : Message)
    (hm : findById store id = some m) (hnone : m.passwordHash = none)
    (hpw : pw ≠ "") (hcoh : c.getById id = none ∨ c.getById id = some m) :
    (putHandlerDB hash store c id (some pw) author content).status = 403 ∧
    (putHandlerDB hash store c id (some pw) author content).store = store := by
  obtain ⟨c1, hc1⟩ := getMessageByIdDB_found store c id m hm hcoh
  unfold putHandlerDB
  rw [strTruthy_some hpw, hc1]
  simp [hnone]

/-- DELETE on a hash-less message with a truthy password: 403, store kept. -/
theorem delete_forbidden (hash : String → String) (store : List Message) (c : Cache)
    (id pw : String) (m : Message)
    (hm : findById store id = some m) (hnone : m.passwordHash = none)
    (hpw : pw ≠ "") (hcoh : c.getById id = none ∨ c.getById id = some m) :
    (deleteHandlerDB hash store c id (some pw)).status = 403 ∧
    (deleteHandlerDB hash store c id (some pw)).store = store := by
  obtain ⟨c1, hc1⟩ := getMessageByIdDB_found store c id m hm hcoh
  unfold deleteHandlerDB
  rw [strTruthy_some hpw, hc1]
  simp [hnone]

/-- Claim C2, counterexample: supplying the empty password string to
update/delete of a hash-less message yields 400 (ValidationError), not the
403 the claim requires for every supplied password. -/
theorem C2_counterexample :
    mNoPw.passwordHash = none ∧
    (putHandlerDB idHash [mNoPw] emptyCache "m2" (some "") none (some "x")).status = 400 ∧
    (deleteHandlerDB idHash [mNoPw] emptyCache "m2" (some "")).status = 400 ∧
    (400 : Nat) ≠ 403 := by
  refine ⟨rfl, by decide, by decide, by decide⟩

/-- Claim C2 (amended): for every stored message without a `passwordHash`
and every NON-EMPTY supplied password, update and delete fail with 403
Forbidden and leave the store unchanged (an empty supplied password
instead fails with 400, see the counterexample). -/
theorem C2_amended (hash : String → String) (store : List Message) (c : Cache)
    (id pw : String) (author content : Option String) (m : Message)
    (hm : findById store id = some m)
    (hnone : m.passwordHash = none)
    (hpw : pw ≠ "")
    (hcoh : c.getById id = none ∨ c.getById id = some m) :
    (putHandlerDB hash store c id (some pw) author content).status = 403 ∧
    (putHandlerDB hash store c id (some pw) author content).store = store ∧
    (deleteHandlerDB hash store c id (some pw)).status = 403 ∧
    (deleteHandlerDB hash store c id (some pw)).store = store := by
  obtain ⟨h1, h2⟩ := put_forbidden hash store c id pw author content m hm hnone hpw hcoh
  obtain ⟨h3, h4⟩ := delete_forbidden hash store c id pw m hm hnone hpw hcoh
  exact ⟨h1, h2, h3, h4⟩

/-- Claim C2, witness: the amended theorem applied to a concrete hash-less
message and password. -/
theorem C2_amended_witness :
    (putHandlerDB idHash [mNoPw] emptyCache "m2" (some "x") none (some "y")).status = 403 ∧
    (putHandlerDB idHash [mNoPw] emptyCache "m2" (some "x") none (some "y")).store = [mNoPw] ∧
    (deleteHandlerDB idHash [mNoPw] emptyCache "m2" (some "x")).status = 403 ∧
    (deleteHandlerDB idHash [mNoPw] emptyCache "m2" (some "x")).store = [mNoPw] :=
  C2_amended idHash [mNoPw] emptyCache "m2" "x" none (some "y") mNoPw
    (by decide) rfl (by decide) (Or.inl (by decide))

/-- Claim C3: a wrong (non-empty) password makes update and delete fail
with 401 Unauthorized in both the DB and the cache variants, leaving the
store, the in-memory list and every group transcript exactly as they
were. -/
theorem C3_unauthorized (hash : String → String) (store : List Message) (c : Cache)
    (id pw hsh : String) (author content : Option String) (m : Message)
    (msgs : List Message)
    (hm : findById store id = some m)
    (hhash : m.passwordHash = some hsh)
    (hpw : pw ≠ "")
    (hwrong : hash pw ≠ hsh)
    (hcoh : c.getById id = none ∨ c.getById id = some m)
    (hmc : msgs.find? (fun x => x.id == id) = some m) :
    (putHandlerDB hash store c id (some pw) author content).status = 401 ∧
    (putHandlerDB hash store c id (some pw) author content).store = store ∧
    (deleteHandlerDB hash store c id (some pw)).status = 401 ∧
    (deleteHandlerDB hash store c id (some pw)).store = store ∧
    (∀ g, generateGroupTxt
        (putHandlerDB hash store c id (some pw) author content).store g
      = generateGroupTxt store g) ∧
    (putHandlerCache hash msgs id (some pw) author content).status = 401 ∧
    (putHandlerCache hash msgs id (some pw) author content).cache = msgs ∧
    (deleteHandlerCache hash msgs id (some pw)).status = 401 ∧
    (deleteHandlerCache hash msgs id (some pw)).cache = msgs := by
  obtain ⟨c1, hc1⟩ := getMessageByIdDB_found store c id m hm hcoh
  have hput : (putHandlerDB hash store c id (some pw) author content)
      = ⟨401, none, store, c1⟩ := by
    unfold putHandlerDB
    rw [strTruthy_some hpw, hc1]
    simp [hhash, verifyPassword, hwrong]
  have hdel : (deleteHandlerDB hash store c id (some pw))
      = ⟨401, none, store, c1⟩ := by
    unfold deleteHandlerDB
    rw [strTruthy_some hpw, hc1]
    simp [hhash, verifyPassword, hwrong]
  have hputc : (putHandlerCache hash msgs id (some pw) author content)
      = ⟨401, none, msgs⟩ := by
    unfold putHandlerCache
    rw [strTruthy_some hpw, hmc]
    simp [hhash, verifyPassword, hwrong]
  have hdelc : (deleteHandlerCache hash msgs id (some pw))
      = ⟨401, none, msgs⟩ := by
    unfold deleteHandlerCache
    rw [strTruthy_some hpw, hmc]
    simp [hhash, verifyPassword, hwrong]
  rw [hput, hdel, hputc, hdelc]
  exact ⟨rfl, rfl, rfl, rfl, fun g => rfl, rfl, rfl, rfl, rfl⟩

/-- Claim C3, witness at a concrete protected message and wrong
password. -/
theorem C3_unauthorized_witness :
    (putHandlerDB idHash [mPw] emptyCache "m3" (some "bad") (some "Z") none).status = 401 ∧
    (putHandlerDB idHash [mPw] emptyCache "m3" (some "bad") (some "Z") none).store = [mPw] ∧
    (deleteHandlerDB idHash [mPw] emptyCache "m3" (some "bad")).status = 401 ∧
    (deleteHandlerDB idHash [mPw] emptyCache "m3" (some "bad")).store = [mPw] ∧
    (∀ g, generateGroupTxt
        (putHandlerDB idHash [mPw] emptyCache "m3" (some "bad") (some "Z") none).store g
      = generateGroupTxt [mPw] g) ∧
    (putHandlerCache idHash [mPw] "m3" (some "bad") (some "Z") none).status = 401 ∧
    (putHandlerCache idHash [mPw] "m3" (some "bad") (some "Z") none).cache = [mPw] ∧
    (deleteHandlerCache idHash [mPw] "m3" (some "bad")).status = 401 ∧
    (deleteHandlerCache idHash [mPw] "m3" (some "bad")).cache = [mPw] :=
  C3_unauthorized idHash [mPw] emptyCache "m3" "bad" "p1" (some "Z") none mPw [mPw]
    (by decide) rfl (by decide) (by decide) (Or.inl (by decide)) (by decide)

/-! ## Claim C4: the private-implies-hash invariant -/

/-- Every `isPrivate` message in the store carries a password hash. -/
def privInvariant (store : List Message) : Prop :=
  ∀ m ∈ store, m.isPrivate = true → m.passwordHash.isSome

theorem applyUpdates_isPrivate (a ct : Option String) (m : Message) :
    (applyUpdates a ct m).isPrivate = m.isPrivate := by
  unfold applyUpdates; cases a <;> cases ct <;> rfl

theorem applyUpdates_passwordHash (a ct : Option String) (m : Message) :
    (applyUpdates a ct m).passwordHash = m.passwordHash := by
  unfold applyUpdates; cases a <;> cases ct <;> rfl

theorem applyUpdates_id (a ct : Option String) (m : Message) :
    (applyUpdates a ct m).id = m.id := by
  unfold applyUpdates; cases a <;> cases ct <;> rfl

/-- The PUT handler either leaves the table alone or rewrites exactly the
id's row through `applyUpdates`. -/
theorem putHandlerDB_store_cases (hash : String → String) (store : List Message)
    (c : Cache) (id : String) (password author content : Option String) :
    (putHandlerDB hash store c id password author content).store = store ∨
    (putHandlerDB hash store c id password author content).store
      = store.map (fun x => if x.id == id then
          applyUpdates (strTruthy author) (strTruthy content) x else x) := by
  unfold putHandlerDB updateMessageDB
  repeat' split
  all_goals simp_all

/-- The like handler either leaves the table alone or bumps the id's
row. -/
theorem likeHandlerDB_store_cases (store : List Message) (c : Cache) (id : String) :
    (likeHandlerDB store c id).store = store ∨
    (likeHandlerDB store c id).store
      = store.map (fun x => if x.id == id then
          { x with likes := x.likes + 1 } else x) := by
  unfold likeHandlerDB likeMessageDB
  repeat' split
  all_goals simp_all

/-- The delete handler either leaves the table alone or filters out the
id's row. -/
theorem deleteHandlerDB_store_cases (hash : String → String) (store : List Message)
    (c : Cache) (id : String) (password : Option String) :
    (deleteHandlerDB hash store c id password).store = store ∨
    (deleteHandlerDB hash store c id password).store
      = store.filter (fun x => ¬ x.id == id) := by
  unfold deleteHandlerDB deleteMessageDB
  repeat' split
  all_goals simp_all

/-- The create handler either leaves the table alone or appends the built
message, and in the latter case the private-without-password rejection was
passed. -/
theorem postHandlerDB_store_cases (hash : String → String) (store : List Message)
    (c : Cache) (b : CreateBody) :
    (postHandlerDB hash store c b).store = store ∨
    (¬ (b.isPrivate = true ∧ strTruthy b.password = none) ∧
      (postHandlerDB hash store c b).store = store ++ [mkCreateMessage hash b]) := by
  unfold postHandlerDB addMessageDB
  repeat' split
  all_goals simp_all

/-- Claim C4: `isPrivate = true` implies a stored hash. Creating a private
message without a truthy password fails with 400 and stores nothing; the
other operations cannot make a message private or strip its hash: like and
update preserve the (isPrivate, passwordHash) pair of every row, delete
only removes rows. -/
theorem C4_invariant (hash : String → String) (store : List Message) (c : Cache)
    (b : CreateBody) (id : String) (password author content : Option String)
    (hinv : privInvariant store) :
    ((b.isPrivate = true ∧ strTruthy b.password = none) →
        postHandlerDB hash store c b = ⟨400, none, store, c⟩) ∧
    privInvariant (postHandlerDB hash store c b).store ∧
    privInvariant (likeHandlerDB store c id).store ∧
    ((likeHandlerDB store c id).store.map (fun m => (m.isPrivate, m.passwordHash))
        = store.map (fun m => (m.isPrivate, m.passwordHash))) ∧
    privInvariant (putHandlerDB hash store c id password author content).store ∧
    ((putHandlerDB hash store c id password author content).store.map
        (fun m => (m.isPrivate, m.passwordHash))
        = store.map (fun m => (m.isPrivate, m.passwordHash))) ∧
    privInvariant (deleteHandlerDB hash store c id password).store ∧
    (∀ x ∈ (deleteHandlerDB hash store c id password).store, x ∈ store) := by
  refine ⟨?_, ?_, ?_, ?_, ?_, ?_, ?_, ?_⟩
  · rintro ⟨hp, hnopw⟩
    unfold postHandlerDB
    split
    · rfl
    · rw [if_pos ⟨hp, hnopw⟩]
  · rcases postHandlerDB_store_cases hash store c b with h | ⟨hcond, h⟩
    · rw [h]; exact hinv
    · rw [h]
      intro x hx hxp
      rcases List.mem_append.1 hx with hx | hx
      · exact hinv x hx hxp
      · have hx' : x = mkCreateMessage hash b := by simpa using hx
        subst hx'
        rcases hpw : strTruthy b.password with _ | pw
        · exfalso
          exact hcond ⟨by simpa [mkCreateMessage] using hxp, hpw⟩
        · simp [mkCreateMessage, hpw]
  · rcases likeHandlerDB_store_cases store c id with h | h <;> rw [h]
    · exact hinv
    · intro x hx hxp
      obtain ⟨y, hy, rfl⟩ := List.mem_map.1 hx
      by_cases hid : y.id == id <;> simp only [hid, if_true, if_false] at hxp ⊢
      · exact hinv y hy hxp
      · exact hinv y hy hxp
  · rcases likeHandlerDB_store_cases store c id with h | h <;> rw [h]
    · simp [List.map_map]
      intro y _
      by_cases hid : y.id = id <;> simp [hid]
  · rcases putHandlerDB_store_cases hash store c id password author content
        with h | h <;> rw [h]
    · exact hinv
    · intro x hx hxp
      obtain ⟨y, hy, rfl⟩ := List.mem_map.1 hx
      by_cases hid : y.id == id <;>
        simp only [hid, if_true, if_false, applyUpdates_isPrivate,
          applyUpdates_passwordHash] at hxp ⊢
      · exact hinv y hy hxp
      · exact hinv y hy hxp
  · rcases putHandlerDB_store_cases hash store c id password author content
        with h | h <;> rw [h]
    · simp [List.map_map]
      intro y _
      by_cases hid : y.id = id <;>
        simp [hid, applyUpdates_isPrivate, applyUpdates_passwordHash]
  · rcases deleteHandlerDB_store_cases hash store c id password with h | h <;> rw [h]
    · exact hinv
    · intro x hx hxp
      exact hinv x (List.mem_filter.1 hx).1 hxp
  · rcases deleteHandlerDB_store_cases hash store c id password with h | h <;> rw [h]
    · intro x hx; exact hx
    · intro x hx; exact (List.mem_filter.1 hx).1

/-- Claim C4, witness: invariant preservation at a concrete private
store, and the 400 rejection of a concrete private-without-password
create. -/
theorem C4_invariant_witness :
    postHandlerDB idHash [mpPriv] emptyCache
      { cbEmptyPw with isPrivate := true } = ⟨400, none, [mpPriv], emptyCache⟩ ∧
    privInvariant (likeHandlerDB [mpPriv] emptyCache "m1").store := by
  have h := C4_invariant idHash [mpPriv] emptyCache
    { cbEmptyPw with isPrivate := true } "m1" none none none
    (by intro m hm hp; fin_cases hm; rfl)
  exact ⟨h.1 ⟨rfl, by decide⟩, h.2.2.1⟩

/-! ## Claim C5: list and transcript ordering -/

/-- Appended first, but with the later timestamp. -/
def mTsLate : Message :=
  { id := "t1", author := "A", group := "ESD", content := "late",
    timestamp := 2000, likes := 0, passwordHash := none, isPrivate := false }

/-- Appended second, but with the earlier timestamp. -/
def mTsEarly : Message :=
  { id := "t2", author := "B", group := "ESD", content := "early",
    timestamp := 1000, likes := 0, passwordHash := none, isPrivate := false }

/-- Claim C5, counterexample: the file-variant list is the reverse of
append order, not a timestamp sort — a file whose append order disagrees
with timestamp order is returned out of newest-first order by
`readMessagesFromFile` (which serves GET `/api/messages` there). -/
theorem C5_counterexample :
    readMessagesFromFile [mTsLate, mTsEarly] = [mTsEarly, mTsLate] ∧
    mTsEarly.timestamp < mTsLate.timestamp ∧
    ¬ List.Sorted (fun a b : Message => b.timestamp ≤ a.timestamp)
        (readMessagesFromFile [mTsLate, mTsEarly]) := by
  refine ⟨rfl, by decide, ?_⟩
  intro h
  rw [show readMessagesFromFile [mTsLate, mTsEarly] = [mTsEarly, mTsLate] from rfl] at h
  have h2 := (List.pairwise_cons.1 h).1 mTsLate (by simp)
  exact absurd h2 (by decide)

/-- Claim C5 (amended): the DB-variant list is sorted newest-first by
timestamp (a permutation of the table) and DB transcripts are sorted
oldest-first; the file-variant list is the reverse of append order and its
transcript rows are in append order, both of which agree with timestamp
order exactly when the file was appended in nondecreasing timestamp order
(the counterexample shows an out-of-order file breaking the original
claim). -/
theorem C5_amended (store : List Message) (g : String) (file : List Message)
    (hfile : List.Sorted (fun a b : Message => a.timestamp ≤ b.timestamp) file) :
    List.Sorted (fun a b : Message => b.timestamp ≤ a.timestamp) (sortDesc store) ∧
    (sortDesc store).Perm store ∧
    List.Sorted (fun a b : Message => a.timestamp ≤ b.timestamp) (groupRowsAsc store g) ∧
    (groupRowsAsc store g).Perm (store.filter (fun m => m.group == g)) ∧
    List.Sorted (fun a b : Message => b.timestamp ≤ a.timestamp)
      (readMessagesFromFile file) ∧
    List.Sorted (fun a b : Message => a.timestamp ≤ b.timestamp)
      (rebuildGroupRows (readMessagesFromFile file) g) := by
  haveI hTot : IsTotal Message (fun a b : Message => b.timestamp ≤ a.timestamp) :=
    ⟨fun a b => le_total b.timestamp a.timestamp⟩
  haveI hTr : IsTrans Message (fun a b : Message => b.timestamp ≤ a.timestamp) :=
    ⟨fun _ _ _ hab hbc => le_trans hbc hab⟩
  haveI hTot2 : IsTotal Message (fun a b : Message => a.timestamp ≤ b.timestamp) :=
    ⟨fun a b => le_total a.timestamp b.timestamp⟩
  haveI hTr2 : IsTrans Message (fun a b : Message => a.timestamp ≤ b.timestamp) :=
    ⟨fun _ _ _ hab hbc => le_trans hab hbc⟩
  refine ⟨List.sorted_insertionSort _ _, List.perm_insertionSort _ _,
    List.sorted_insertionSort _ _, List.perm_insertionSort _ _, ?_, ?_⟩
  · unfold readMessagesFromFile
    exact List.pairwise_reverse.2 hfile
  · unfold rebuildGroupRows readMessagesFromFile
    exact List.pairwise_reverse.2 ((List.pairwise_reverse.2 hfile).filter _)

/-- Claim C5, witness: orderings at a concrete two-message store and a
concrete timestamp-ordered file. -/
theorem C5_amended_witness :
    List.Sorted (fun a b : Message => b.timestamp ≤ a.timestamp)
      (sortDesc [mTsLate, mTsEarly]) ∧
    List.Sorted (fun a b : Message => a.timestamp ≤ b.timestamp)
      (groupRowsAsc [mTsLate, mTsEarly] "ESD") ∧
    List.Sorted (fun a b : Message => b.timestamp ≤ a.timestamp)
      (readMessagesFromFile [mTsEarly, mTsLate]) :=
  have h := C5_amended [mTsLate, mTsEarly] "ESD" [mTsEarly, mTsLate]
    (by decide)
  ⟨h.1, h.2.2.1, h.2.2.2.2.1⟩

/-! ## Claim C6: repeated likes are additive -/

/-- N sequential like requests against the DB variant. -/
def likeIterDB (id : String) : Nat → List Message × Cache → List Message × Cache
  | 0, s => s
  | n + 1, s =>
      likeIterDB id n ((likeHandlerDB s.1 s.2 id).store, (likeHandlerDB s.1 s.2 id).cache)

/-- N sequential like requests against the cache variant's in-memory
list. -/
def likeIterCache (id : String) : Nat → List Message → List Message
  | 0, msgs => msgs
  | n + 1, msgs => likeIterCache id n (likeHandlerCache msgs id).cache

/-- Add `k` likes to every row matching the id (the SQL UPDATE shape). -/
def bumpBy (id : String) (k : Int) (store : List Message) : List Message :=
  store.map (fun x => if x.id == id then { x with likes := x.likes + k } else x)

theorem bumpBy_zero (id : String) (store : List Message) :
    bumpBy id 0 store = store := by
  unfold bumpBy
  have h : ∀ x ∈ store,
      (if x.id == id then { x with likes := x.likes + 0 } else x) = x := by
    intro x _
    split <;> simp
  exact (List.map_congr_left h).trans (List.map_id _)

theorem bumpBy_bumpBy (id : String) (j k : Int) (store : List Message) :
    bumpBy id k (bumpBy id j store) = bumpBy id (j + k) store := by
  unfold bumpBy
  rw [List.map_map]
  refine List.map_congr_left ?_
  intro x _
  by_cases hx : x.id == id <;>
    simp [Function.comp, hx, add_assoc]

theorem bumpBy_of_no_match (id : String) (k : Int) (l : List Message)
    (h : ∀ y ∈ l, (y.id == id) = false) : bumpBy id k l = l := by
  unfold bumpBy
  have h2 : ∀ y ∈ l,
      (if y.id == id then { y with likes := y.likes + k } else y) = y := by
    intro y hy
    rw [h y hy]
    simp
  simpa using List.map_congr_left h2

theorem getById_invalidate (c : Cache) (id : String) :
    (invalidateCache c).getById id = c.getById id := rfl

theorem getById_delById (c : Cache) (id : String) :
    (c.delById id).getById id = none := by
  have h : (c.byId.filter (fun p => p.1 ≠ id)).find? (fun p => p.1 == id)
      = none := by
    rw [List.find?_eq_none]
    intro p hp
    have := (List.mem_filter.1 hp).2
    simpa using this
  simp [Cache.delById, Cache.getById, h]

theorem getById_setById (c : Cache) (id : String) (m : Message) :
    (c.setById id m).getById id = some m := by
  simp [Cache.setById, Cache.getById, List.find?_cons]

theorem findById_bumpBy (store : List Message) (id : String) (k : Int)
    (m : Message) (hm : findById store id = some m) :
    findById (bumpBy id k store) id = some { m with likes := m.likes + k } := by
  unfold findById bumpBy at *
  induction store with
  | nil => simp at hm
  | cons x xs ih =>
    by_cases hx : (x.id == id)
    · rw [@List.find?_cons_of_pos Message (fun y => y.id == id) x xs hx] at hm
      obtain rfl : x = m := by simpa using hm
      simp only [List.map_cons, hx, if_true]
      exact @List.find?_cons_of_pos Message (fun y => y.id == id) _ _ (by simpa using hx)
    · rw [@List.find?_cons_of_neg Message (fun y => y.id == id) x xs (by simpa using hx)] at hm
      simp only [List.map_cons, hx, if_false, Bool.false_eq_true]
      rw [@List.find?_cons_of_neg Message (fun y => y.id == id) x _ (by simpa using hx)]
      exact ih hm

theorem likeMessageDB_eq (store : List Message) (c : Cache) (id : String) :
    likeMessageDB store c id
      = (bumpBy id 1 store, (invalidateCache c).delById id) := rfl

theorem getMessageByIdDB_miss (store : List Message) (c : Cache) (id : String)
    (m : Message) (hc : c.getById id = none) (hm : findById store id = some m) :
    getMessageByIdDB store c id = (some m, c.setById id m) := by
  unfold getMessageByIdDB
  rw [hc, hm]

/-- One like request on a coherent state: 200, the row bumped by one, and
the freshly re-read row cached. -/
theorem likeHandlerDB_eq (store : List Message) (c : Cache) (id : String)
    (m : Message) (c1 : Cache)
    (hc1 : getMessageByIdDB store c id = (some m, c1))
    (hm : findById store id = some m) :
    likeHandlerDB store c id
      = ⟨200, some (omitKey "passwordHash"
            (Message.toRow { m with likes := m.likes + 1 })),
         bumpBy id 1 store,
         ((invalidateCache c1).delById id).setById id
           { m with likes := m.likes + 1 }⟩ := by
  have hmiss := getMessageByIdDB_miss (bumpBy id 1 store)
      ((invalidateCache c1).delById id) id { m with likes := m.likes + 1 }
      (getById_delById _ _) (findById_bumpBy store id 1 m hm)
  unfold likeHandlerDB
  simp only [hc1, likeMessageDB_eq, hmiss]

/-- Iterating the DB like handler n times bumps the row by n. -/
theorem likeIterDB_spec (id : String) (n : Nat) (store : List Message)
    (c : Cache) (m : Message)
    (hm : findById store id = some m)
    (hcoh : c.getById id = none ∨ c.getById id = some m) :
    (likeIterDB id n (store, c)).1 = bumpBy id (n : Int) store := by
  induction n generalizing store c m with
  | zero => simpa [likeIterDB] using (bumpBy_zero id store).symm
  | succ n ih =>
    obtain ⟨c1, hc1⟩ := getMessageByIdDB_found store c id m hm hcoh
    have h200 := likeHandlerDB_eq store c id m c1 hc1 hm
    have hm' : findById (bumpBy id 1 store) id
        = some { m with likes := m.likes + 1 } :=
      findById_bumpBy store id 1 m hm
    have hcoh' : (((invalidateCache c1).delById id).setById id
        { m with likes := m.likes + 1 }).getById id
        = some { m with likes := m.likes + 1 } := getById_setById _ _ _
    have hstep := ih (bumpBy id 1 store)
      (((invalidateCache c1).delById id).setById id { m with likes := m.likes + 1 })
      { m with likes := m.likes + 1 } hm' (Or.inr hcoh')
    simp only [likeIterDB, h200]
    rw [hstep, bumpBy_bumpBy]
    congr 1
    push_cast
    ring

theorem map_id_bumpBy (id : String) (k : Int) (l : List Message) :
    (bumpBy id k l).map Message.id = l.map Message.id := by
  unfold bumpBy
  rw [List.map_map]
  refine List.map_congr_left ?_
  intro x _
  by_cases hx : x.id == id <;> simp [hx, Function.comp]

theorem no_tail_match_of_nodup (x : Message) (xs : List Message) (id : String)
    (hnd : ((x :: xs).map Message.id).Nodup) (hx : (x.id == id) = true) :
    ∀ y ∈ xs, (y.id == id) = false := by
  intro y hy
  rw [beq_eq_false_iff_ne]
  intro hyid
  have hxid : x.id = id := by simpa using hx
  have hmem : x.id ∈ xs.map Message.id :=
    List.mem_map.2 ⟨y, hy, by rw [hyid, hxid]⟩
  simp only [List.map_cons, List.nodup_cons] at hnd
  exact hnd.1 hmem

/-- With unique ids, updating the first match is the same as the SQL
all-matches update. -/
theorem bumpFirst_eq_bumpBy (msgs : List Message) (id : String)
    (hnd : (msgs.map Message.id).Nodup) :
    bumpFirst msgs id = bumpBy id 1 msgs := by
  induction msgs with
  | nil => rfl
  | cons x xs ih =>
    by_cases hx : (x.id == id)
    · simp only [bumpFirst, hx, if_true]
      unfold bumpBy
      simp only [List.map_cons, hx, if_true]
      have h := bumpBy_of_no_match id 1 xs (no_tail_match_of_nodup x xs id hnd hx)
      unfold bumpBy at h
      rw [h]
    · simp only [bumpFirst, hx, if_false, Bool.false_eq_true]
      have hnd2 : (xs.map Message.id).Nodup := by
        simp only [List.map_cons, List.nodup_cons] at hnd
        exact hnd.2
      unfold bumpBy
      simp only [List.map_cons, hx, if_false, Bool.false_eq_true]
      have h := ih hnd2
      unfold bumpBy at h
      rw [h]

theorem find?_eq_of_nodup_mem (l : List Message) (id : String) (m : Message)
    (hnd : (l.map Message.id).Nodup) (hmem : m ∈ l) (hid : (m.id == id) = true) :
    l.find? (fun x => x.id == id) = some m := by
  induction l with
  | nil => simp at hmem
  | cons x xs ih =>
    rcases List.mem_cons.1 hmem with rfl | hmem2
    · exact @List.find?_cons_of_pos Message (fun y => y.id == id) m xs hid
    · have hx : (x.id == id) = false := by
        rw [beq_eq_false_iff_ne]
        intro hxid
        have hmid : m.id = id := by simpa using hid
        have : x.id ∈ xs.map Message.id :=
          List.mem_map.2 ⟨m, hmem2, by rw [hmid, hxid]⟩
        simp only [List.map_cons, List.nodup_cons] at hnd
        exact hnd.1 this
      rw [@List.find?_cons_of_neg Message (fun y => y.id == id) x xs (by simp [hx])]
      have hnd2 : (xs.map Message.id).Nodup := by
        simp only [List.map_cons, List.nodup_cons] at hnd
        exact hnd.2
      exact ih hnd2 hmem2

/-- Iterating the cache-variant like handler n times: the in-memory list
stays a permutation of the n-times-bumped original (each request also
reverses the live cache, an artifact of the in-place `updateMessages`). -/
theorem likeIterCache_perm (id : String) (n : Nat) (msgs : List Message)
    (m : Message) (hnd : (msgs.map Message.id).Nodup)
    (hmc : msgs.find? (fun x => x.id == id) = some m) :
    (likeIterCache id n msgs).Perm (bumpBy id (n : Int) msgs) := by
  induction n generalizing msgs m with
  | zero =>
    rw [show ((0 : Nat) : Int) = 0 from rfl, bumpBy_zero]
    simp [likeIterCache]
  | succ n ih =>
    have hstate : (likeHandlerCache msgs id).cache = (bumpBy id 1 msgs).reverse := by
      unfold likeHandlerCache
      rw [hmc, bumpFirst_eq_bumpBy msgs id hnd]
    have hm_mem : m ∈ msgs := List.mem_of_find?_eq_some hmc
    have hid : (m.id == id) = true := by simpa using List.find?_some hmc
    have hnd1 : (((bumpBy id 1 msgs).reverse).map Message.id).Nodup := by
      rw [List.map_reverse, map_id_bumpBy]
      exact List.nodup_reverse.2 hnd
    have hmem1 : { m with likes := m.likes + 1 } ∈ (bumpBy id 1 msgs).reverse := by
      rw [List.mem_reverse]
      unfold bumpBy
      refine List.mem_map.2 ⟨m, hm_mem, ?_⟩
      rw [hid]
      simp
    have hmc1 : ((bumpBy id 1 msgs).reverse).find? (fun x => x.id == id)
        = some { m with likes := m.likes + 1 } :=
      find?_eq_of_nodup_mem _ id _ hnd1 hmem1 (by simpa using hid)
    have h := ih ((bumpBy id 1 msgs).reverse) { m with likes := m.likes + 1 }
      hnd1 hmc1
    simp only [likeIterCache, hstate]
    refine h.trans ?_
    have hrev : bumpBy id (n : Int) ((bumpBy id 1 msgs).reverse)
        = (bumpBy id (n : Int) (bumpBy id 1 msgs)).reverse := by
      unfold bumpBy
      exact List.map_reverse _ _
    rw [hrev, bumpBy_bumpBy]
    have hc : ((1 : Int) + (n : Int)) = (((n + 1 : Nat)) : Int) := by
      push_cast
      ring
    rw [hc]
    exact List.reverse_perm _

/-- Claim C6: N like requests on an existing id (no interleaved edits or
deletes) leave that row with likes increased by exactly N and change no
other field of any message, in both the DB variant (exact store equality)
and the cache variant (permutation of the bumped list, since each request
also reverses the in-memory order); a like on an id absent from the store
fails with 404 and changes nothing. -/
theorem C6_likes (store : List Message) (c : Cache) (id j : String)
    (m : Message) (n : Nat) (msgs : List Message)
    (hm : findById store id = some m)
    (hcoh : c.getById id = none ∨ c.getById id = some m)
    (hj : findById store j = none) (hjc : c.getById j = none)
    (hnd : (msgs.map Message.id).Nodup)
    (hmc : msgs.find? (fun x => x.id == id) = some m)
    (hjm : msgs.find? (fun x => x.id == j) = none) :
    (likeIterDB id n (store, c)).1 = bumpBy id (n : Int) store ∧
    findById (likeIterDB id n (store, c)).1 id
      = some { m with likes := m.likes + (n : Int) } ∧
    likeHandlerDB store c j = ⟨404, none, store, c⟩ ∧
    (likeIterCache id n msgs).Perm (bumpBy id (n : Int) msgs) ∧
    { m with likes := m.likes + (n : Int) } ∈ likeIterCache id n msgs ∧
    likeHandlerCache msgs j = ⟨404, none, msgs⟩ := by
  have h1 := likeIterDB_spec id n store c m hm hcoh
  have hperm := likeIterCache_perm id n msgs m hnd hmc
  refine ⟨h1, ?_, ?_, hperm, ?_, ?_⟩
  · rw [h1]
    exact findById_bumpBy store id _ m hm
  · unfold likeHandlerDB getMessageByIdDB
    rw [hjc, hj]
  · have hb : (m.id == id) = true := by simpa using List.find?_some hmc
    have hmem : { m with likes := m.likes + (n : Int) } ∈ bumpBy id (n : Int) msgs := by
      unfold bumpBy
      refine List.mem_map.2 ⟨m, List.mem_of_find?_eq_some hmc, ?_⟩
      rw [hb]
      simp
    exact hperm.mem_iff.2 hmem
  · unfold likeHandlerCache
    rw [hjm]

/-- Claim C6, witness: two likes at a concrete store take likes from 3 to
5, and a like on a missing id 404s. -/
theorem C6_likes_witness :
    (likeIterDB "m3" 2 ([mPw], emptyCache)).1 = [{ mPw with likes := 5 }] ∧
    likeHandlerDB [mPw] emptyCache "zz" = ⟨404, none, [mPw], emptyCache⟩ ∧
    (likeIterCache "m3" 2 [mPw]).Perm [{ mPw with likes := 5 }] := by
  have h := C6_likes [mPw] emptyCache "m3" "zz" mPw 2 [mPw]
    (by decide) (Or.inl (by decide)) (by decide) (by decide)
    (by decide) (by decide) (by decide)
  have e : bumpBy "m3" ((2 : Nat) : Int) [mPw] = [{ mPw with likes := 5 }] := by
    decide
  exact ⟨by rw [h.1, e], h.2.2.1, e ▸ h.2.2.2.1⟩

/-! ## Claim C7: cache invalidation on mutations -/

/-- A fresh message reusing the id `m1`. -/
def m1New : Message :=
  { id := "m1", author := "N", group := "ESD", content := "fresh",
    timestamp := 5000, likes := 0, passwordHash := none, isPrivate := false }

/-- A Redis state holding both a full-list entry and a per-id entry. -/
def cStale : Cache := ⟨some [mpPriv], [("m1", mpPriv)]⟩

theorem getMessagesDB_of_all_none (store : List Message) (c : Cache)
    (h : c.all = none) : (getMessagesDB store c).1 = sortDesc store := by
  unfold getMessagesDB
  rw [h]

theorem getMessageByIdDB_of_byId_none (store : List Message) (c : Cache)
    (id : String) (h : c.getById id = none) :
    (getMessageByIdDB store c id).1 = findById store id := by
  unfold getMessageByIdDB
  rw [h]
  cases hf : findById store id <;> rfl

/-- Claim C7, counterexample: `addMessage` deletes only the full-list key;
a populated `message:<id>` entry survives an append with that id, and the
next getById serves the stale pre-mutation value instead of the inserted
row. -/
theorem C7_counterexample :
    addMessageDB [] cStale m1New
      = some ([m1New], ⟨none, [("m1", mpPriv)]⟩) ∧
    (Cache.getById ⟨none, [("m1", mpPriv)]⟩ "m1") = some mpPriv ∧
    (getMessageByIdDB [m1New] ⟨none, [("m1", mpPriv)]⟩ "m1").1 = some mpPriv ∧
    mpPriv ≠ m1New := by
  refine ⟨by decide, by decide, by decide, by decide⟩

/-- Claim C7 (amended): a successful append invalidates the full-list
entry but leaves the per-id keyspace untouched; successful update, delete
and like invalidate both the full-list entry and the mutated id's entry;
consequently the next listAll after any of the four mutations and the next
getById after update/delete/like re-read the post-mutation store, and the
next getById after an append does so provided no entry for that id was
cached beforehand. -/
theorem C7_amended (store : List Message) (c : Cache) (m : Message) (id : String)
    (author content : Option String) :
    (∀ st2 c2, addMessageDB store c m = some (st2, c2) →
        c2.all = none ∧ c2.byId = c.byId) ∧
    (∀ st2 c2, updateMessageDB store c id author content = some (st2, c2) →
        c2.all = none ∧ c2.getById id = none) ∧
    ((deleteMessageDB store c id).2.all = none ∧
      (deleteMessageDB store c id).2.getById id = none) ∧
    ((likeMessageDB store c id).2.all = none ∧
      (likeMessageDB store c id).2.getById id = none) ∧
    (∀ st2 c2, addMessageDB store c m = some (st2, c2) →
        (getMessagesDB st2 c2).1 = sortDesc st2 ∧
        (c.getById m.id = none →
          (getMessageByIdDB st2 c2 m.id).1 = findById st2 m.id)) ∧
    (∀ st2 c2, updateMessageDB store c id author content = some (st2, c2) →
        (getMessagesDB st2 c2).1 = sortDesc st2 ∧
        (getMessageByIdDB st2 c2 id).1 = findById st2 id) ∧
    ((getMessagesDB (deleteMessageDB store c id).1 (deleteMessageDB store c id).2).1
        = sortDesc (deleteMessageDB store c id).1 ∧
      (getMessageByIdDB (deleteMessageDB store c id).1
          (deleteMessageDB store c id).2 id).1
        = findById (deleteMessageDB store c id).1 id) ∧
    ((getMessagesDB (likeMessageDB store c id).1 (likeMessageDB store c id).2).1
        = sortDesc (likeMessageDB store c id).1 ∧
      (getMessageByIdDB (likeMessageDB store c id).1
          (likeMessageDB store c id).2 id).1
        = findById (likeMessageDB store c id).1 id) := by
  have hadd : ∀ st2 c2, addMessageDB store c m = some (st2, c2) →
      c2 = invalidateCache c := by
    intro st2 c2 h
    unfold addMessageDB at h
    split at h
    · exact absurd h (by simp)
    · simp only [Option.some.injEq, Prod.mk.injEq] at h
      exact h.2.symm
  have hupd : ∀ st2 c2, updateMessageDB store c id author content = some (st2, c2) →
      c2 = (invalidateCache c).delById id := by
    intro st2 c2 h
    simp only [updateMessageDB] at h
    split at h
    · exact absurd h (by simp)
    · simp only [Option.some.injEq, Prod.mk.injEq] at h
      exact h.2.symm
  refine ⟨?_, ?_, ?_, ?_, ?_, ?_, ?_, ?_⟩
  · intro st2 c2 h
    rw [hadd st2 c2 h]
    exact ⟨rfl, rfl⟩
  · intro st2 c2 h
    rw [hupd st2 c2 h]
    exact ⟨rfl, getById_delById _ _⟩
  · exact ⟨rfl, getById_delById _ _⟩
  · exact ⟨rfl, getById_delById _ _⟩
  · intro st2 c2 h
    rw [hadd st2 c2 h]
    exact ⟨getMessagesDB_of_all_none _ _ rfl,
      fun hb => getMessageByIdDB_of_byId_none _ _ _ hb⟩
  · intro st2 c2 h
    rw [hupd st2 c2 h]
    exact ⟨getMessagesDB_of_all_none _ _ rfl,
      getMessageByIdDB_of_byId_none _ _ _ (getById_delById _ _)⟩
  · exact ⟨getMessagesDB_of_all_none _ _ rfl,
      getMessageByIdDB_of_byId_none _ _ _ (getById_delById _ _)⟩
  · exact ⟨getMessagesDB_of_all_none _ _ rfl,
      getMessageByIdDB_of_byId_none _ _ _ (getById_delById _ _)⟩

/-- Claim C7, witness at a concrete append and like. -/
theorem C7_amended_witness :
    ((likeMessageDB [mPw] cStale "m3").2.all = none ∧
      (likeMessageDB [mPw] cStale "m3").2.getById "m3" = none) ∧
    (getMessagesDB (likeMessageDB [mPw] cStale "m3").1
        (likeMessageDB [mPw] cStale "m3").2).1
      = sortDesc (likeMessageDB [mPw] cStale "m3").1 :=
  have h := C7_amended [mPw] cStale m1New "m3" none none
  ⟨h.2.2.2.1, h.2.2.2.2.2.2.2.1⟩

/-- Claim C8: a broadcast always re-reads the authoritative current list
and pushes its full sanitization, never a delta: the DB-variant
notification chain (invalidate, then broadcast) produces exactly the
sanitized sort of the current table whatever the previous Redis state, the
plain GET after an invalidation agrees with it, and the cache-variant
broadcast pushes the full sanitized in-memory list. -/
theorem C8_broadcast (store : List Message) (c : Cache) (msgs : List Message) :
    (onMessagesChanged store c).1 = (sortDesc store).map sanitizeDB ∧
    (getMessagesHandlerDB store (invalidateCache c)).1
      = (sortDesc store).map sanitizeDB ∧
    broadcastPayloadCache msgs = msgs.map sanitizeFileVariant := by
  have hg : getMessagesDB store (invalidateCache c)
      = (sortDesc store, ⟨some (sortDesc store), c.byId⟩) := rfl
  refine ⟨?_, ?_, rfl⟩
  · unfold onMessagesChanged broadcastPayloadDB
    rw [hg]
  · unfold getMessagesHandlerDB
    rw [hg]

/-! ## Claim C9: archive export -/

theorem append_newline_ne_empty (s : String) : s ++ "\n" ≠ "" := by
  intro h
  have h2 := congrArg String.length h
  simp [String.length_append] at h2
  exact absurd h2.2 (by decide)

theorem mem_distinctGroups (store : List Message) (g : String) :
    g ∈ distinctGroups store ↔ g ∈ store.map (fun m => m.group) := by
  unfold distinctGroups
  rw [(List.perm_insertionSort _ _).mem_iff, List.mem_dedup]

theorem nodup_distinctGroups (store : List Message) :
    (distinctGroups store).Nodup := by
  unfold distinctGroups
  exact (List.perm_insertionSort _ _).nodup_iff.2 (List.nodup_dedup _)

theorem distinctGroups_ne_nil (store : List Message) (h : store ≠ []) :
    (distinctGroups store).isEmpty = false := by
  obtain ⟨m, ms, rfl⟩ := List.exists_cons_of_ne_nil h
  have : m.group ∈ distinctGroups (m :: ms) :=
    (mem_distinctGroups _ _).2 (by simp)
  cases hg : distinctGroups (m :: ms) with
  | nil => rw [hg] at this; simp at this
  | cons a l => rfl

theorem groupRowsAsc_ne_nil (store : List Message) (g : String)
    (h : g ∈ store.map (fun m => m.group)) : (groupRowsAsc store g).isEmpty = false := by
  obtain ⟨m, hm, rfl⟩ := List.mem_map.1 h
  have hmem : m ∈ store.filter (fun x => x.group == m.group) :=
    List.mem_filter.2 ⟨hm, by simp⟩
  have hmem2 : m ∈ groupRowsAsc store m.group := by
    unfold groupRowsAsc
    exact (List.perm_insertionSort _ _).mem_iff.2 hmem
  cases hg : groupRowsAsc store m.group with
  | nil => rw [hg] at hmem2; simp at hmem2
  | cons a l => rfl

theorem generateGroupTxt_ne_empty (store : List Message) (g : String)
    (h : g ∈ store.map (fun m => m.group)) : generateGroupTxt store g ≠ "" := by
  unfold generateGroupTxt
  rw [groupRowsAsc_ne_nil store g h]
  simp only [Bool.false_eq_true, if_false]
  exact append_newline_ne_empty _

theorem filterMap_archiveEntry (store : List Message) (l : List String)
    (h : ∀ g ∈ l, generateGroupTxt store g ≠ "") :
    l.filterMap (archiveEntry store)
      = l.map (fun g => (g ++ ".txt", generateGroupTxt store g)) := by
  induction l with
  | nil => rfl
  | cons x xs ih =>
    have hx := h x (by simp)
    have hxs := ih (fun g hg => h g (List.mem_cons_of_mem _ hg))
    simp [List.filterMap_cons, archiveEntry, hx, hxs]

/-- Claim C9, counterexample: the empty secret differs from the configured
download password yet yields 400 (Password is required), not 401. -/
theorem C9_counterexample :
    downloadHandlerDB [mPw] (some "") = .badRequest ∧
    ("" : String) ≠ DOWNLOAD_PASSWORD ∧
    DownloadResult.badRequest ≠ .unauthorized := by
  refine ⟨by decide, by decide, by decide⟩

/-- Claim C9 (amended): in the DB variant, a NON-EMPTY wrong secret fails
with 401 (an empty or missing one fails with 400), an empty store fails
with 404, and otherwise the archive holds exactly one entry per distinct
group of the current store, named `group.txt`, whose content is that
group's transcript regenerated from the store at request time. -/
theorem C9_amended (store : List Message) (pw : String) (hpw : pw ≠ "") :
    (pw ≠ DOWNLOAD_PASSWORD → downloadHandlerDB store (some pw) = .unauthorized) ∧
    downloadHandlerDB [] (some DOWNLOAD_PASSWORD) = .notFound ∧
    (store ≠ [] →
      downloadHandlerDB store (some DOWNLOAD_PASSWORD)
        = .archive ((distinctGroups store).map
            (fun g => (g ++ ".txt", generateGroupTxt store g))) ∧
      (∀ g, g ∈ distinctGroups store ↔ g ∈ store.map (fun m => m.group)) ∧
      (distinctGroups store).Nodup ∧
      (∀ g ∈ distinctGroups store, generateGroupTxt store g ≠ "")) := by
  have hdp : strTruthy (some DOWNLOAD_PASSWORD) = some DOWNLOAD_PASSWORD :=
    strTruthy_some (by decide)
  refine ⟨?_, ?_, ?_⟩
  · intro hne
    simp only [downloadHandlerDB, strTruthy_some hpw]
    rw [if_pos hne]
  · decide
  · intro hst
    have hne : ∀ g ∈ distinctGroups store, generateGroupTxt store g ≠ "" :=
      fun g hg => generateGroupTxt_ne_empty store g ((mem_distinctGroups _ _).1 hg)
    refine ⟨?_, fun g => mem_distinctGroups store g, nodup_distinctGroups store, hne⟩
    simp only [downloadHandlerDB, hdp, distinctGroups_ne_nil store hst,
      Bool.false_eq_true, if_false, ne_eq, not_true_eq_false]
    rw [filterMap_archiveEntry store _ hne]

/-- Claim C9, witness: wrong secret 401, right secret produces the two
regenerated per-group entries at a concrete two-group store. -/
theorem C9_amended_witness :
    downloadHandlerDB [mPw, mNoPw] (some "x") = .unauthorized ∧
    downloadHandlerDB [mPw, mNoPw] (some DOWNLOAD_PASSWORD)
      = .archive ((distinctGroups [mPw, mNoPw]).map
          (fun g => (g ++ ".txt", generateGroupTxt [mPw, mNoPw] g))) :=
  have h := C9_amended [mPw, mNoPw] "x" (by decide)
  ⟨h.1 (by decide), (h.2.2 (by decide)).1⟩

/-! ## Claim C10: empty-string create password -/

/-- Like preserves every row's `passwordHash`. -/
theorem likeMessageDB_passwordHash (st : List Message) (c3 : Cache) (i : String) :
    (likeMessageDB st c3 i).1.map (fun x => x.passwordHash)
      = st.map (fun x => x.passwordHash) := by
  unfold likeMessageDB
  simp only [List.map_map]
  refine List.map_congr_left ?_
  intro y _
  by_cases hid : y.id == i <;> simp [hid, Function.comp]

/-- A successful targeted UPDATE preserves every row's `passwordHash`. -/
theorem updateMessageDB_passwordHash (st : List Message) (c3 : Cache) (i : String)
    (a ct : Option String) (st2 : List Message) (c2 : Cache)
    (h : updateMessageDB st c3 i a ct = some (st2, c2)) :
    st2.map (fun x => x.passwordHash) = st.map (fun x => x.passwordHash) := by
  simp only [updateMessageDB] at h
  split at h
  · exact absurd h (by simp)
  · simp only [Option.some.injEq, Prod.mk.injEq] at h
    rw [← h.1]
    simp only [List.map_map]
    refine List.map_congr_left ?_
    intro y _
    by_cases hid : y.id == i <;>
      simp [hid, Function.comp, applyUpdates_passwordHash]

/-- Claim C10, counterexample: after a create whose password was the empty
string, a later update that again supplies the empty string fails with
400, not the 403 the claim asserts for any later password. -/
theorem C10_counterexample :
    (postHandlerDB idHash [] emptyCache cbEmptyPw).status = 201 ∧
    findById (postHandlerDB idHash [] emptyCache cbEmptyPw).store "m9"
      = some ⟨"m9", "D", "ESD", "note", 3000, 0, none, false⟩ ∧
    (putHandlerDB idHash (postHandlerDB idHash [] emptyCache cbEmptyPw).store
        (postHandlerDB idHash [] emptyCache cbEmptyPw).cache
        "m9" (some "") (some "E") none).status = 400 ∧
    (400 : Nat) ≠ 403 := by
  refine ⟨by decide, by decide, by decide, by decide⟩

/-- Claim C10 (amended): create with an empty-string password behaves
identically to create with no password at all — the stored row has no
`passwordHash` — so every later update or delete of it with a NON-EMPTY
password fails with 403 and leaves the store unchanged, one with an empty
password fails with 400 and leaves it unchanged, and no like or update
ever gives any row a hash. -/
theorem C10_emptyPassword (hash : String → String) (store store2 : List Message)
    (c c2 : Cache) (b : CreateBody) (id pw : String)
    (author content : Option String) (m : Message)
    (hb : b.password = some "")
    (hm : findById store2 id = some m) (hnone : m.passwordHash = none)
    (hpw : pw ≠ "")
    (hcoh : c2.getById id = none ∨ c2.getById id = some m) :
    postHandlerDB hash store c b
      = postHandlerDB hash store c { b with password := none } ∧
    (mkCreateMessage hash b).passwordHash = none ∧
    (∀ st2 c3, addMessageDB store c (mkCreateMessage hash b) = some (st2, c3) →
      findById st2 b.id = some (mkCreateMessage hash b)) ∧
    (putHandlerDB hash store2 c2 id (some pw) author content).status = 403 ∧
    (putHandlerDB hash store2 c2 id (some pw) author content).store = store2 ∧
    (deleteHandlerDB hash store2 c2 id (some pw)).status = 403 ∧
    (deleteHandlerDB hash store2 c2 id (some pw)).store = store2 ∧
    putHandlerDB hash store2 c2 id (some "") author content
      = ⟨400, none, store2, c2⟩ ∧
    deleteHandlerDB hash store2 c2 id (some "") = ⟨400, none, store2, c2⟩ ∧
    (likeMessageDB store2 c2 id).1.map (fun x => x.passwordHash)
      = store2.map (fun x => x.passwordHash) := by
  obtain ⟨bid, bauthor, bgroup, bcontent, bts, blikes, bpw, bpriv⟩ := b
  simp only [CreateBody.password] at hb
  subst hb
  obtain ⟨hput, hputst⟩ :=
    put_forbidden hash store2 c2 id pw author content m hm hnone hpw hcoh
  obtain ⟨hdel, hdelst⟩ :=
    delete_forbidden hash store2 c2 id pw m hm hnone hpw hcoh
  refine ⟨rfl, rfl, ?_, hput, hputst, hdel, hdelst, rfl, rfl,
    likeMessageDB_passwordHash store2 c2 id⟩
  intro st2 c3 h
  unfold addMessageDB at h
  split at h
  · exact absurd h (by simp)
  next hany =>
    simp only [Option.some.injEq, Prod.mk.injEq] at h
    rw [← h.1]
    have hany2 : ∀ x ∈ store, (x.id == bid) = false := by
      intro x hx
      simp only [List.any_eq_true, not_exists, not_and] at hany
      have h3 := hany x hx
      simpa [mkCreateMessage] using h3
    unfold findById
    rw [List.find?_append]
    have hnonefind : (store.find? (fun x =>
        x.id == ({ id := bid, author := bauthor, group := bgroup,
                   content := bcontent, timestamp := bts, likes := blikes,
                   password := some "", isPrivate := bpriv } : CreateBody).id))
        = none := by
      rw [List.find?_eq_none]
      intro x hx
      simpa using hany2 x hx
    rw [hnonefind]
    simp [mkCreateMessage]

/-- Claim C10, witness at a concrete empty-password create and later
attempts. -/
theorem C10_emptyPassword_witness :
    postHandlerDB idHash [] emptyCache cbEmptyPw
      = postHandlerDB idHash [] emptyCache { cbEmptyPw with password := none } ∧
    (putHandlerDB idHash [mNoPw] emptyCache "m2" (some "zz") none (some "w")).status
      = 403 ∧
    putHandlerDB idHash [mNoPw] emptyCache "m2" (some "") none (some "w")
      = ⟨400, none, [mNoPw], emptyCache⟩ :=
  have h := C10_emptyPassword idHash [] [mNoPw] emptyCache emptyCache cbEmptyPw
    "m2" "zz" none (some "w") mNoPw rfl (by decide) rfl (by decide)
    (Or.inl (by decide))
  ⟨h.1, h.2.2.2.1, h.2.2.2.2.2.2.2.1⟩
